import Mathlib

/-!
Verification of the CLMM core against its specification.

The Python sources are shallowly embedded in Lean:
machine floats become exact rationals (`ℚ`); numpy arrays become lists;
fallible functions return `Except String`; the external collaborators that
the spec declares out of scope (the cosmology distance engine, the scipy
quadrature routine, real-number exponentiation with non-integer exponents)
are abstract function fields of the model structures.  All finite data is
representable in `ℚ`, so the non-finite filtering step of
`compute_radial_averages` passes every value in this model.
-/

/-- Python `str.lower`, mapped over the characters (the sources only ever
lower ASCII tags). -/
def strLower (s : String) : String := ⟨s.data.map Char.toLower⟩

/-! ## `clmm.utils`: `compute_radial_averages` (src/clmm/utils.py lines 118-181)

One catalog row, as consumed by the binned statistics: separation `x`,
signal `y`, weight `w`, per-point error `e` and the 1-based bin number `bn`
assigned by `scipy.stats.binned_statistic` (0 below range,
`edges.length` above range, last bin closed on the right). -/
structure RRow where
  x : ℚ
  y : ℚ
  w : ℚ
  e : ℚ
  bn : ℕ
  deriving Repr, DecidableEq

/-- Bin number of `x` for the edge list `edges`, following the
`scipy.stats.binned_statistic` convention used by the source: values in
`[edges i, edges (i+1))` get number `i+1`, the last bin is closed on the
right, out-of-range values get `0` or `edges.length`. -/
def binNumber (edges : List ℚ) (x : ℚ) : ℕ :=
  match edges.getLast? with
  | none => 0
  | some top =>
    if top < x then edges.length
    else if x = top then edges.length - 1
    else (edges.filter (fun a => decide (a ≤ x))).length

/-- Assembles the catalog rows of `compute_radial_averages`: a `None` weight
array means unit weight per object, a `None` error array contributes zero
error variance (as in the source, where `data_yerr2 = 0` in that case). -/
def mkRows (xs ys : List ℚ) (edges : List ℚ) (yerr : Option (List ℚ))
    (weights : Option (List ℚ)) : List RRow :=
  let ws := match weights with
    | none => List.replicate xs.length 1
    | some l => l
  let es := match yerr with
    | none => List.replicate xs.length 0
    | some l => l
  ((xs.zip ys).zip (ws.zip es)).map
    (fun p => ⟨p.1.1, p.1.2, p.2.1, p.2.2, binNumber edges p.1.1⟩)

/-- The rows falling in bin `i` (0-based bin index, bin number `i+1`). -/
def binRowsOf (rows : List RRow) (i : ℕ) : List RRow :=
  rows.filter (fun r => decide (r.bn = i + 1))

/-- `wts_sum` of the source: total raw weight in bin `i`. -/
def wtsSumOf (rows : List RRow) (i : ℕ) : ℚ :=
  ((binRowsOf rows i).map (fun r => r.w)).sum

/-- The per-object weight after the in-place normalisation
`wts[objs_in_bins] *= 1./wts_sum[binnumber[objs_in_bins]-1]`:
rows with an in-range bin number are divided by their bin total,
out-of-range rows keep their raw weight. -/
def normWOf (rows : List RRow) (nbins : ℕ) (r : RRow) : ℚ :=
  if 1 ≤ r.bn ∧ r.bn ≤ nbins then r.w / wtsSumOf rows (r.bn - 1) else r.w

/-- `weighted_bin_stat`: binned sum of `vals * wts` with the normalised
weights. -/
def wbsOf (rows : List RRow) (nbins : ℕ) (f : RRow → ℚ) (i : ℕ) : ℚ :=
  ((binRowsOf rows i).map (fun r => f r * normWOf rows nbins r)).sum

/-- Output record of `compute_radial_averages`; the per-bin arrays are
total functions of the 0-based bin index, and `err_y_sq` stores the squared
error (the source takes `np.sqrt` at the very end, see `err_y`). -/
structure RadialAverages where
  mean_x : ℕ → ℚ
  mean_y : ℕ → ℚ
  err_y_sq : ℕ → ℚ
  num_objects : ℕ → ℕ
  binnumber : List ℕ

/-- `clmm.utils.compute_radial_averages`.  The error-model tag is lowered
first; a tag other than `ste`/`std` raises.  `ste` multiplies the weighted
variance by the binned sum of squared normalised weights. -/
def compute_radial_averages (xs ys : List ℚ) (edges : List ℚ)
    (yerr : Option (List ℚ)) (error_model : String)
    (weights : Option (List ℚ)) : Except String RadialAverages :=
  let em := strLower error_model
  let rows := mkRows xs ys edges yerr weights
  let nbins := edges.length - 1
  if em = "ste" ∨ em = "std" then
    .ok
      { mean_x := wbsOf rows nbins (fun r => r.x)
        mean_y := wbsOf rows nbins (fun r => r.y)
        err_y_sq := fun i =>
          (if em = "ste" then
            (wbsOf rows nbins (fun r => r.y ^ 2) i
              - (wbsOf rows nbins (fun r => r.y) i) ^ 2)
              * wbsOf rows nbins (fun r => normWOf rows nbins r) i
          else
            wbsOf rows nbins (fun r => r.y ^ 2) i
              - (wbsOf rows nbins (fun r => r.y) i) ^ 2)
          + wbsOf rows nbins (fun r => r.e ^ 2 * normWOf rows nbins r) i
        num_objects := fun i => (binRowsOf rows i).length
        binnumber := rows.map (fun r => r.bn) }
  else .error (em ++ " not supported err model for binned stats")

/-- Fallback record used to read an `Except` result off totally. -/
def defaultRA : RadialAverages :=
  ⟨fun _ => 0, fun _ => 0, fun _ => 0, fun _ => 0, []⟩

/-- Projects the successful result of `compute_radial_averages`. -/
def raOf (e : Except String RadialAverages) : RadialAverages :=
  e.toOption.getD defaultRA

/-- The error on the mean, `err_y = np.sqrt(stat_yerr2 + data_yerr2)`. -/
noncomputable def err_y (ra : RadialAverages) (i : ℕ) : ℝ :=
  Real.sqrt (ra.err_y_sq i)

/-! ## `clmm.utils`: `make_bins` (src/clmm/utils.py lines 184-242)

`nbins` is an integer in the model (the dynamic `isinstance(nbins, int)`
check of the source is enforced by the type); the remaining range checks
are translated verbatim.  The log-spaced branch computes
`10 ** linspace(log10 rmin, log10 rmax, nbins+1)` over the reals. -/

/-- `np.linspace a b (n+1)` with endpoint, over the edge count `n`. -/
def linspaceQ (a b : ℚ) (n : ℤ) : List ℝ :=
  (List.range (n.toNat + 1)).map (fun i => ((a + (b - a) * i / n : ℚ) : ℝ))

/-- `np.logspace a b (n+1)` with endpoint, base 10. -/
noncomputable def logspace10 (a b : ℝ) (n : ℤ) : List ℝ :=
  (List.range (n.toNat + 1)).map (fun i => (10 : ℝ) ^ (a + (b - a) * i / n))

/-- `np.percentile` with the default linear interpolation. -/
def percentileQ (l : List ℚ) (q : ℚ) : ℚ :=
  let s := l.insertionSort (· ≤ ·)
  match s with
  | [] => 0
  | _ =>
    let n := s.length
    let h : ℚ := q * (n - 1) / 100
    let k : ℤ := ⌊h⌋
    let lo := s.getD k.toNat 0
    let hi := s.getD (min (k.toNat + 1) (n - 1)) 0
    lo + (h - (k : ℚ)) * (hi - lo)

/-- `clmm.utils.make_bins`.  Endpoint consistency is checked first, then the
bin count, then the method is dispatched on its lowercased name. -/
noncomputable def make_bins (rmin rmax : ℚ) (nbins : ℤ) (method : String)
    (source_seps : Option (List ℚ)) : Except String (List ℝ) :=
  let m := strLower method
  if rmin > rmax ∨ rmin < 0 ∨ rmax < 0 then
    .error "Invalid bin endpoints in make_bins"
  else if nbins ≤ 0 then
    .error "Invalid nbins. Must be integer greater than 0."
  else if m = "evenwidth" then
    .ok (linspaceQ rmin rmax nbins)
  else if m = "evenlog10width" then
    .ok (logspace10 (Real.logb 10 (rmin : ℝ)) (Real.logb 10 (rmax : ℝ)) nbins)
  else if m = "equaloccupation" then
    match source_seps with
    | none => .error "Binning method equaloccupation requires source separations array"
    | some seps =>
      let masked := seps.filter (fun a => decide (rmin ≤ a) && decide (a ≤ rmax))
      .ok ((List.range (nbins.toNat + 1)).map
        (fun j => ((percentileQ masked (100 * (j : ℚ) / (nbins : ℚ))) : ℝ)))
  else .error "Binning method is not currently supported"

/-- A valid log-spaced edge array from `rmin` to `rmax` with `n` bins:
`n+1` strictly increasing edges whose consecutive ratios agree (stated
multiplicatively, so no division is involved). -/
def IsLogSpacedEdges (rmin rmax : ℝ) (n : ℕ) (l : List ℝ) : Prop :=
  l.length = n + 1 ∧ l.head? = some rmin ∧ l.getLast? = some rmax ∧
    l.Chain' (· < ·) ∧
    ∀ i, i + 2 < l.length → l.getD (i+1) 0 * l.getD (i+1) 0 = l.getD i 0 * l.getD (i+2) 0

/-! ## `clmm.theory.parent_class`: the `CLMModeling` lensing API

The abstract backend hooks (`_eval_*` raising `NotImplementedError` in the
parent class) and the external collaborators (cosmology distances,
`scipy.integrate.quad`, float exponentiation with a non-integer exponent)
are abstract function fields.  Projected radii and redshifts are scalars
here; the source applies the same formulas elementwise over arrays. -/

/-- The external cosmology capability (out of scope per the spec): critical
surface density and angular diameter distances. -/
structure Cosmo where
  eval_sigma_crit : ℚ → ℚ → ℚ
  eval_da : ℚ → ℚ
  eval_da_z1z2 : ℚ → ℚ → ℚ

/-- The `beta_kwargs` dictionary (`zmin`, `zmax`, `delta_z_cut` keys); the
source rejects any other key, which the record type enforces here. -/
structure BetaKwargs where
  zmin : Option ℚ := none
  zmax : ℚ := 10
  delta_z_cut : ℚ := 1/10

/-- The `z_src` argument: discrete redshift array, a redshift distribution
function, or a literal pair of lensing-efficiency moments. -/
inductive ZSrc where
  | vals : List ℚ → ZSrc
  | distr : (ℚ → ℚ) → ZSrc
  | betaPair : ℚ → ℚ → ZSrc

/-- The value returned by a lensing observable: an array plus
a warning flag on the discrete path, a scalar on the averaged paths. -/
inductive LensResult where
  | discreteOut : List ℚ → Bool → LensResult
  | avgOut : ℚ → LensResult
  deriving Repr, DecidableEq

/-- The modeling object.  `quad` abstracts `scipy.integrate.quad`, `qpow`
abstracts float exponentiation with a non-integer exponent, and the three
`_impl` fields abstract the backend profile strategies that the parent
class leaves to its children. -/
structure CLMModel where
  cosmo : Cosmo
  z_inf : ℚ
  validate_input : Bool
  quad : (ℚ → ℚ) → ℚ → ℚ → ℚ
  qpow : ℚ → ℚ → ℚ
  eval_excess_surface_density_impl : ℚ → ℚ → ℚ
  eval_surface_density_impl : ℚ → ℚ → ℚ
  eval_3d_density_impl : ℚ → ℚ → ℚ

/-- `clmm.utils.compute_beta`: `heaviside(z_s - z_cl, 0) * D_A(z_cl, z_s) / D_A(z_cl)`. -/
def compute_beta (z_s z_cl : ℚ) (c : Cosmo) : ℚ :=
  (if z_cl < z_s then 1 else 0) * c.eval_da_z1z2 z_cl z_s / c.eval_da z_cl

/-- `clmm.utils.compute_beta_s`: `beta(z_s) / beta(z_inf)`. -/
def compute_beta_s (z_s z_cl z_inf : ℚ) (c : Cosmo) : ℚ :=
  compute_beta z_s z_cl c / compute_beta z_inf z_cl c

/-- Modelled from the spec: `clmm.utils.compute_beta_s_func` is imported by
`parent_class.py` but its module content is not under `src/`; per the spec
the distribution path weights the per-redshift formula by the efficiency
ratio, i.e. it scales an already-evaluated observable by `beta_s(z)`. -/
def compute_beta_s_func (z_s z_cl z_inf : ℚ) (c : Cosmo) (v : ℚ) : ℚ :=
  compute_beta_s z_s z_cl z_inf c * v

/-- `clmm.utils.compute_beta_s_mean`; the caller always supplies the
distribution function, so it is a required argument here. -/
def compute_beta_s_mean (quad : (ℚ → ℚ) → ℚ → ℚ → ℚ) (z_cl z_inf : ℚ)
    (c : Cosmo) (zmax : ℚ) (delta_z_cut : ℚ) (zmin : Option ℚ)
    (f : ℚ → ℚ) : ℚ :=
  let integrand := fun z => compute_beta_s z z_cl z_inf c * f z
  let zlo := zmin.getD (z_cl + delta_z_cut)
  quad integrand zlo zmax / quad f zlo zmax

/-- `clmm.utils.compute_beta_s_square_mean`. -/
def compute_beta_s_square_mean (quad : (ℚ → ℚ) → ℚ → ℚ → ℚ) (z_cl z_inf : ℚ)
    (c : Cosmo) (zmax : ℚ) (delta_z_cut : ℚ) (zmin : Option ℚ)
    (f : ℚ → ℚ) : ℚ :=
  let integrand := fun z => (compute_beta_s z z_cl z_inf c) ^ 2 * f z
  let zlo := zmin.getD (z_cl + delta_z_cut)
  quad integrand zlo zmax / quad f zlo zmax

/-- Modelled from the spec:
`clmm.theory.generic.compute_reduced_shear_from_convergence` is not under
`src/`; the spec gives `g = gamma / (1 - kappa)`. -/
def compute_reduced_shear_from_convergence (shear convergence : ℚ) : ℚ :=
  shear / (1 - convergence)

/-- Modelled from the spec:
`clmm.theory.generic.compute_magnification_bias_from_magnification` is not
under `src/`; the spec gives `mu ** (alpha - 1)`, a float power taken
through the abstract `qpow`. -/
def compute_magnification_bias_from_magnification (M : CLMModel)
    (magnification alpha : ℚ) : ℚ :=
  M.qpow magnification (alpha - 1)

/-- Modelled from the spec: `clmm.utils.compute_for_good_redshifts` is
imported by `parent_class.py` but is not under `src/`.  Per the spec,
sources with `z_src <= z_cl` are masked to the supplied lensing-null value
and a warning (the returned flag) is issued instead of an exception. -/
def compute_for_good_redshifts (core : ℚ → ℚ) (z_cl : ℚ) (z_srcs : List ℚ)
    (mismatch : ℚ) : List ℚ × Bool :=
  (z_srcs.map (fun z => if z_cl < z then core z else mismatch),
   z_srcs.any (fun z => decide (z ≤ z_cl)))

/-- `_eval_tangential_shear_core`: `DeltaSigma(r, z_cl) / Sigma_crit(z_cl, z_src)`.
The public wrapper it calls re-validates `r_proj` and `z_cl`, but every
call site has already validated them, so the core is the pure quotient. -/
def eval_tangential_shear_core (M : CLMModel) (r z_cl z_src : ℚ) : ℚ :=
  M.eval_excess_surface_density_impl r z_cl / M.cosmo.eval_sigma_crit z_cl z_src

/-- `_eval_convergence_core`: `Sigma(r, z_cl) / Sigma_crit(z_cl, z_src)`. -/
def eval_convergence_core (M : CLMModel) (r z_cl z_src : ℚ) : ℚ :=
  M.eval_surface_density_impl r z_cl / M.cosmo.eval_sigma_crit z_cl z_src

/-- `_eval_reduced_tangential_shear_core`: calls the public discrete scalar
evaluations, which mask a foreground source to zero shear/convergence. -/
def eval_reduced_tangential_shear_core (M : CLMModel) (r z_cl z_src : ℚ) : ℚ :=
  let kappa := if z_cl < z_src then eval_convergence_core M r z_cl z_src else 0
  let gammat := if z_cl < z_src then eval_tangential_shear_core M r z_cl z_src else 0
  compute_reduced_shear_from_convergence gammat kappa

/-- `_eval_magnification_core`: `1 / ((1-kappa)^2 - |gamma_t|^2)` with the
same public discrete scalar evaluations. -/
def eval_magnification_core (M : CLMModel) (r z_cl z_src : ℚ) : ℚ :=
  let kappa := if z_cl < z_src then eval_convergence_core M r z_cl z_src else 0
  let gammat := if z_cl < z_src then eval_tangential_shear_core M r z_cl z_src else 0
  1 / ((1 - kappa) ^ 2 - |gammat| ^ 2)

/-- `_eval_magnification_bias_core`: bias of the public magnification. -/
def eval_magnification_bias_core (M : CLMModel) (r z_cl z_src alpha : ℚ) : ℚ :=
  let mu := if z_cl < z_src then eval_magnification_core M r z_cl z_src else 1
  compute_magnification_bias_from_magnification M mu alpha

/-- Error message of the `(z_src_info, approx)` pairing check raised inside
`_validate_z_src` (a configuration error). -/
def pairMsg : String := "approx requires z_src_info to be distribution or beta"

/-- Error message of the `approx=None` fallback check in the method bodies
(a configuration error). -/
def approxNoneMsg : String := "approx=None requires z_src_info to be discrete or distribution"

/-- Error message of the final `approx` dispatch (unsupported approx). -/
def unsupApproxMsg : String := "Unsupported approx"

/-- Error message of the final `z_src_info` dispatch. -/
def unsupInfoMsg : String := "Unsupported z_src_info"

/-- Python truthiness of `loc_dict.get('approx')`: absent/None and the
empty string are falsy. -/
def approxTruthy : Option String → Bool
  | none => false
  | some s => if s = "" then false else true

/-- The payload part of `_validate_z_src`: type and range checks of `z_src`
according to `z_src_info` (`argmin=0` with strict `eqmin=False`, so a
discrete redshift `<= 0` raises). -/
def payloadCheck (info : String) (z : ZSrc) : Except String Unit :=
  if info = "discrete" then
    match z with
    | .vals zs =>
      if zs.any (fun a => decide (a ≤ 0)) then .error "z_src must be greater than 0"
      else .ok ()
    | _ => .error "z_src must be float array"
  else if info = "distribution" then
    match z with
    | .distr _ => .ok ()
    | _ => .error "z_src must be a one dimensional function"
  else if info = "beta" then
    match z with
    | .betaPair _ _ => .ok ()
    | _ => .error "z_src must be a beta tuple"
  else .ok ()

/-- `_validate_z_src`: payload validation followed by the
`(z_src_info, approx)` pairing check (`approx` truthy requires
`z_src_info` in distribution/beta). -/
def validate_z_src (info : String) (z : ZSrc) (approx : Option String) :
    Except String Unit :=
  match payloadCheck info z with
  | .error e => .error e
  | .ok _ =>
    if approxTruthy approx ∧ info ≠ "distribution" ∧ info ≠ "beta" then
      .error pairMsg
    else .ok ()

/-- The common validation prefix of the lensing observables: `r_proj` and
`z_cl` are validated with `argmin=0` (strict, so `0` raises), then
`_validate_z_src` runs; everything is skipped when `validate_input` is
off.  The tangential shear and convergence methods have no `approx`
argument, so they pass `none` here. -/
def lensValidate (M : CLMModel) (r z_cl : ℚ) (info : String) (z : ZSrc)
    (approx : Option String) : Except String Unit :=
  if M.validate_input then
    if r ≤ 0 then .error "r_proj must be greater than 0"
    else if z_cl ≤ 0 then .error "z_cl must be greater than 0"
    else validate_z_src info z approx
  else .ok ()

/-- `_get_beta_s_mean`: the first moment from a literal pair or from the
distribution integral; any other `z_src_info` leaves the local variable
unbound in the source (an error). -/
def get_beta_s_mean (M : CLMModel) (z_cl : ℚ) (z : ZSrc) (info : String)
    (bk : Option BetaKwargs) : Except String ℚ :=
  if info = "beta" then
    match z with
    | .betaPair b _ => .ok b
    | _ => .error "z_src must be a beta tuple"
  else if info = "distribution" then
    match z with
    | .distr f =>
      let k := bk.getD {}
      .ok (compute_beta_s_mean M.quad z_cl M.z_inf M.cosmo k.zmax k.delta_z_cut k.zmin f)
    | _ => .error "z_src must be a one dimensional function"
  else .error "beta_s_mean unbound"

/-- `_get_beta_s_square_mean`: the second moment, same structure. -/
def get_beta_s_square_mean (M : CLMModel) (z_cl : ℚ) (z : ZSrc) (info : String)
    (bk : Option BetaKwargs) : Except String ℚ :=
  if info = "beta" then
    match z with
    | .betaPair _ b2 => .ok b2
    | _ => .error "z_src must be a beta tuple"
  else if info = "distribution" then
    match z with
    | .distr f =>
      let k := bk.getD {}
      .ok (compute_beta_s_square_mean M.quad z_cl M.z_inf M.cosmo k.zmax k.delta_z_cut k.zmin f)
    | _ => .error "z_src must be a one dimensional function"
  else .error "beta_s_square_mean unbound"

/-- `_pdz_weighted_avg`: the PDF-weighted average of `core` applied to the
per-redshift shear `beta_s(z) * gamma_inf` and convergence
`beta_s(z) * kappa_inf`, normalised by the PDF integral. -/
def pdz_weighted_avg (M : CLMModel) (core : ℚ → ℚ → ℚ) (pdz : ℚ → ℚ)
    (r z_cl : ℚ) (ik : Option BetaKwargs) : ℚ :=
  let tfunc := fun z => compute_beta_s_func z z_cl M.z_inf M.cosmo
    (eval_tangential_shear_core M r z_cl M.z_inf)
  let kfunc := fun z => compute_beta_s_func z z_cl M.z_inf M.cosmo
    (eval_convergence_core M r z_cl M.z_inf)
  let integrand := fun z => pdz z * core (tfunc z) (kfunc z)
  let k := ik.getD {}
  let zmin := k.zmin.getD (z_cl + k.delta_z_cut)
  M.quad integrand zmin k.zmax / M.quad pdz zmin k.zmax

/-- `eval_tangential_shear`: validation, then the discrete masked path or
the moment-scaled infinite-source path. -/
def eval_tangential_shear (M : CLMModel) (r z_cl : ℚ) (z : ZSrc)
    (info : String) (bk : Option BetaKwargs) : Except String LensResult :=
  match lensValidate M r z_cl info z none with
  | .error e => .error e
  | .ok _ =>
    if info = "discrete" then
      match z with
      | .vals zs =>
        let p := compute_for_good_redshifts
          (fun zz => eval_tangential_shear_core M r z_cl zz) z_cl zs 0
        .ok (.discreteOut p.1 p.2)
      | _ => .error "z_src must be float array"
    else if info = "distribution" ∨ info = "beta" then
      match get_beta_s_mean M z_cl z info bk with
      | .error e => .error e
      | .ok bsm => .ok (.avgOut (bsm * eval_tangential_shear_core M r z_cl M.z_inf))
    else .error unsupInfoMsg

/-- `eval_convergence`: same structure with the surface density. -/
def eval_convergence (M : CLMModel) (r z_cl : ℚ) (z : ZSrc)
    (info : String) (bk : Option BetaKwargs) : Except String LensResult :=
  match lensValidate M r z_cl info z none with
  | .error e => .error e
  | .ok _ =>
    if info = "discrete" then
      match z with
      | .vals zs =>
        let p := compute_for_good_redshifts
          (fun zz => eval_convergence_core M r z_cl zz) z_cl zs 0
        .ok (.discreteOut p.1 p.2)
      | _ => .error "z_src must be float array"
    else if info = "distribution" ∨ info = "beta" then
      match get_beta_s_mean M z_cl z info bk with
      | .error e => .error e
      | .ok bsm => .ok (.avgOut (bsm * eval_convergence_core M r z_cl M.z_inf))
    else .error unsupInfoMsg

/-- `eval_reduced_tangential_shear`: exact per-galaxy or PDF-integrated
formulas for `approx=None`, the Applegate et al. 2014 / Schrabback et al.
2017 expansions for `order1`/`order2`, an error otherwise. -/
def eval_reduced_tangential_shear (M : CLMModel) (r z_cl : ℚ) (z : ZSrc)
    (info : String) (approx : Option String) (bk : Option BetaKwargs) :
    Except String LensResult :=
  match lensValidate M r z_cl info z approx with
  | .error e => .error e
  | .ok _ =>
    match approx with
    | none =>
      if info = "distribution" then
        match z with
        | .distr f =>
          .ok (.avgOut (pdz_weighted_avg M
            (fun gammat kappa => gammat / (1 - kappa)) f r z_cl bk))
        | _ => .error "z_src must be a one dimensional function"
      else if info = "discrete" then
        match z with
        | .vals zs =>
          let p := compute_for_good_redshifts
            (fun zz => eval_reduced_tangential_shear_core M r z_cl zz) z_cl zs 0
          .ok (.discreteOut p.1 p.2)
        | _ => .error "z_src must be float array"
      else .error approxNoneMsg
    | some a =>
      if a = "order1" ∨ a = "order2" then
        match get_beta_s_mean M z_cl z info bk with
        | .error e => .error e
        | .ok bsm =>
          let gammat_inf := eval_tangential_shear_core M r z_cl M.z_inf
          let kappa_inf := eval_convergence_core M r z_cl M.z_inf
          let gt := bsm * gammat_inf / (1 - bsm * kappa_inf)
          if a = "order2" then
            match get_beta_s_square_mean M z_cl z info bk with
            | .error e => .error e
            | .ok bs2 =>
              .ok (.avgOut (gt * (1 + (bs2 / (bsm * bsm) - 1) * bsm * kappa_inf)))
          else .ok (.avgOut gt)
      else .error unsupApproxMsg

/-- `eval_magnification`: exact or weak-lensing expansion. -/
def eval_magnification (M : CLMModel) (r z_cl : ℚ) (z : ZSrc)
    (info : String) (approx : Option String) (bk : Option BetaKwargs) :
    Except String LensResult :=
  match lensValidate M r z_cl info z approx with
  | .error e => .error e
  | .ok _ =>
    match approx with
    | none =>
      if info = "distribution" then
        match z with
        | .distr f =>
          .ok (.avgOut (pdz_weighted_avg M
            (fun gammat kappa => 1 / ((1 - kappa) ^ 2 - gammat ^ 2)) f r z_cl bk))
        | _ => .error "z_src must be a one dimensional function"
      else if info = "discrete" then
        match z with
        | .vals zs =>
          let p := compute_for_good_redshifts
            (fun zz => eval_magnification_core M r z_cl zz) z_cl zs 1
          .ok (.discreteOut p.1 p.2)
        | _ => .error "z_src must be float array"
      else .error approxNoneMsg
    | some a =>
      if a = "order1" ∨ a = "order2" then
        match get_beta_s_mean M z_cl z info bk with
        | .error e => .error e
        | .ok bsm =>
          let kappa_inf := eval_convergence_core M r z_cl M.z_inf
          let gammat_inf := eval_tangential_shear_core M r z_cl M.z_inf
          if a = "order2" then
            match get_beta_s_square_mean M z_cl z info bk with
            | .error e => .error e
            | .ok bs2 =>
              .ok (.avgOut (1 + 2 * bsm * kappa_inf
                + 3 * bs2 * kappa_inf ^ 2 + bs2 * gammat_inf ^ 2))
          else .ok (.avgOut (1 + 2 * bsm * kappa_inf))
      else .error unsupApproxMsg

/-- `eval_magnification_bias`: exact or weak-lensing expansion of
`mu ** (alpha - 1)`. -/
def eval_magnification_bias (M : CLMModel) (r z_cl : ℚ) (z : ZSrc)
    (alpha : ℚ) (info : String) (approx : Option String)
    (bk : Option BetaKwargs) : Except String LensResult :=
  match lensValidate M r z_cl info z approx with
  | .error e => .error e
  | .ok _ =>
    match approx with
    | none =>
      if info = "distribution" then
        match z with
        | .distr f =>
          .ok (.avgOut (pdz_weighted_avg M
            (fun gammat kappa => 1 / M.qpow ((1 - kappa) ^ 2 - gammat ^ 2) (alpha - 1))
            f r z_cl bk))
        | _ => .error "z_src must be a one dimensional function"
      else if info = "discrete" then
        match z with
        | .vals zs =>
          let p := compute_for_good_redshifts
            (fun zz => eval_magnification_bias_core M r z_cl zz alpha) z_cl zs 1
          .ok (.discreteOut p.1 p.2)
        | _ => .error "z_src must be float array"
      else .error approxNoneMsg
    | some a =>
      if a = "order1" ∨ a = "order2" then
        match get_beta_s_mean M z_cl z info bk with
        | .error e => .error e
        | .ok bsm =>
          let kappa_inf := eval_convergence_core M r z_cl M.z_inf
          let gammat_inf := eval_tangential_shear_core M r z_cl M.z_inf
          if a = "order2" then
            match get_beta_s_square_mean M z_cl z info bk with
            | .error e => .error e
            | .ok bs2 =>
              .ok (.avgOut (1 + (alpha - 1) * (2 * bsm * kappa_inf)
                + (alpha - 1) * (bs2 * gammat_inf ^ 2)
                + (2 * alpha - 1) * (alpha - 1) * bs2 * kappa_inf ^ 2))
          else .ok (.avgOut (1 + (alpha - 1) * (2 * bsm * kappa_inf)))
      else .error unsupApproxMsg

/-- `eval_3d_density`: both arguments validated with `argmin=0` (strict, so
`0` raises), then the profile-family strategy is applied elementwise. -/
def eval_3d_density (M : CLMModel) (r3d : List ℚ) (z_cl : ℚ) :
    Except String (List ℚ) :=
  if M.validate_input then
    if r3d.any (fun a => decide (a ≤ 0)) then .error "r3d must be greater than 0"
    else if z_cl ≤ 0 then .error "z_cl must be greater than 0"
    else .ok (r3d.map (fun a => M.eval_3d_density_impl a z_cl))
  else .ok (r3d.map (fun a => M.eval_3d_density_impl a z_cl))

/-! ## `set_halo_density_profile` (src/clmm/theory/parent_class.py lines 317-353) -/

/-- Profile configuration state of `CLMModeling`: the three definition
fields, the optional backend profile object `hdpm` (abstracted to a tag),
and the supported-definition dictionaries. -/
structure HaloState where
  massdef : String
  delta_mdef : ℤ
  halo_profile_model : String
  hdpm : Option ℕ
  mdef_dict : List String
  hdpm_dict : List String
  validate_input : Bool
  deriving Repr, DecidableEq

/-- `set_halo_density_profile`: inputs are lowercased, validated against
the backend dictionaries, and the profile object is re-derived (through
the abstract `_update_halo_density_profile`, the `upd` argument) only when
no profile exists yet or one of the three definitions changed. -/
def set_halo_density_profile (s : HaloState) (upd : String → String → ℤ → ℕ)
    (halo_profile_model massdef : String) (delta_mdef : ℤ) :
    Except String HaloState :=
  let md := strLower massdef
  let hpm := strLower halo_profile_model
  let rest : Except String HaloState :=
    if s.hdpm = none ∨ s.halo_profile_model ≠ hpm ∨ s.massdef ≠ md
        ∨ s.delta_mdef ≠ delta_mdef then
      .ok { s with halo_profile_model := hpm, massdef := md,
                   delta_mdef := delta_mdef, hdpm := some (upd hpm md delta_mdef) }
    else .ok s
  if s.validate_input then
    if delta_mdef ≤ 0 then .error "delta_mdef must be greater than 0"
    else if ¬ md ∈ s.mdef_dict then
      .error "Halo density profile mass definition not currently supported"
    else if ¬ hpm ∈ s.hdpm_dict then
      .error "Halo density profile model not currently supported"
    else rest
  else rest

/-! ## `clmm.galaxycluster.GalaxyCluster` (src/clmm/galaxycluster.py) -/

/-- Modelled from the spec: the `GCData` catalog table lives in
`gcdata.py`, which is not under `src/`; per the spec it is an
externally-managed tabular structure with named columns and no validation
of its own.  Only the `ra` column is relevant to the claims. -/
structure GCDataM where
  ra : List ℚ
  deriving Repr, DecidableEq

/-- The cluster metadata plus its background-galaxy catalog. -/
structure GalaxyClusterM where
  unique_id : String
  ra : ℚ
  dec : ℚ
  z : ℚ
  galcat : GCDataM
  deriving Repr, DecidableEq

/-- `_check_types`: cluster `ra` in `[-360, 360]`, `dec` in `[-90, 90]`
(both endpoints accepted, `eqmin`/`eqmax` true), `z >= 0`.  The galaxy
catalog itself is only type-checked, not range-checked. -/
def check_types (ra dec z : ℚ) : Except String Unit :=
  if ra < -360 ∨ 360 < ra then .error "ra out of range"
  else if dec < -90 ∨ 90 < dec then .error "dec out of range"
  else if z < 0 then .error "z out of range"
  else .ok ()

/-- One application of the two sequential conditional shifts of
`set_ra_lower` (`+360` if below `ra_low`, then `-360` if at or above
`ra_low + 360`). -/
def raShift (ra_low x : ℚ) : ℚ :=
  let x1 := x + (if x < ra_low then 360 else 0)
  x1 - (if ra_low + 360 ≤ x1 then 360 else 0)

/-- `set_ra_lower`: only `ra_low` in `{-180, 0}` is accepted; the cluster
`ra` and every catalog `ra` get the two sequential conditional shifts. -/
def set_ra_lower (c : GalaxyClusterM) (ra_low : ℚ) : Except String GalaxyClusterM :=
  if ra_low ≠ -180 ∧ ra_low ≠ 0 then .error "ra_low must be -180 or 0"
  else .ok { c with ra := raShift ra_low c.ra,
                    galcat := ⟨c.galcat.ra.map (raShift ra_low)⟩ }

/-- `GalaxyCluster.__init__` with full arguments: store the values, check
the types/ranges, then normalise all right ascensions with
`set_ra_lower(ra_low=0)`. -/
def GalaxyCluster_init (uid : String) (ra dec z : ℚ) (galcat : GCDataM) :
    Except String GalaxyClusterM :=
  match check_types ra dec z with
  | .error e => .error e
  | .ok _ => set_ra_lower ⟨uid, ra, dec, z, galcat⟩ 0

/-- The galaxy-ID bookkeeping block of `GalaxyCluster.make_radial_profile`
(src/clmm/galaxycluster.py lines 440-448): the per-bin ID lists from the
`binnumber` array produced by the external `clmm.dataops` binner (not
under `src/`), filtered to occupancy `> 1` only when
`include_empty_bins` is false. -/
def gal_ids_in_bins (ids : List ℤ) (binnumber : List ℕ) (nbins : ℕ)
    (include_empty_bins : Bool) : List (List ℤ) :=
  let gal_ids := (List.range nbins).map
    (fun i => ((ids.zip binnumber).filter (fun p => decide (p.2 = i + 1))).map Prod.fst)
  if include_empty_bins then gal_ids
  else gal_ids.filter (fun g => decide (1 < g.length))

/-! ## Concrete instances used by counterexamples and witnesses -/

/-- A trivial cosmology: all distances and critical densities equal `1`. -/
def cosmo0 : Cosmo := ⟨fun _ _ => 1, fun _ => 1, fun _ _ => 1⟩

/-- A concrete model with validation on: zero excess surface density, unit
surface density, identity-like 3d density. -/
def model0 : CLMModel :=
  { cosmo := cosmo0, z_inf := 1000, validate_input := true,
    quad := fun _ _ _ => 0, qpow := fun _ _ => 1,
    eval_excess_surface_density_impl := fun _ _ => 0,
    eval_surface_density_impl := fun _ _ => 1,
    eval_3d_density_impl := fun a _ => a }

/-! ## Helper lemmas -/

/-- Dividing each mapped term by a constant divides the sum. -/
theorem list_sum_map_div {α : Type} (l : List α) (g : α → ℚ) (c : ℚ) :
    (l.map (fun a => g a / c)).sum = (l.map g).sum / c := by
  induction l with
  | nil => simp
  | cons a t ih => simp [ih, add_div]

/-- A list of nonnegative rationals with zero sum is pointwise zero. -/
theorem list_sum_zero_of_nonneg {l : List ℚ} (h : ∀ x ∈ l, 0 ≤ x)
    (hs : l.sum = 0) : ∀ x ∈ l, x = 0 := by
  induction l with
  | nil => simp
  | cons a t ih =>
    have ha : 0 ≤ a := h a (by simp)
    have ht : 0 ≤ t.sum := List.sum_nonneg (fun x hx => h x (by simp [hx]))
    have hsum : a + t.sum = 0 := by simpa using hs
    have ha0 : a = 0 := by linarith
    have ht0 : t.sum = 0 := by linarith
    intro x hx
    rcases List.mem_cons.1 hx with rfl | hx
    · exact ha0
    · exact ih (fun y hy => h y (by simp [hy])) ht0 x hx

/-- Weighted Cauchy-Schwarz over a row list: the squared weighted sum of
the values is at most the total weight times the weighted sum of squares,
for nonnegative weights. -/
theorem list_weighted_cs (l : List RRow) (hw : ∀ r ∈ l, 0 ≤ r.w) :
    ((l.map (fun r => r.y * r.w)).sum) ^ 2
      ≤ (l.map (fun r => r.w)).sum * (l.map (fun r => r.y ^ 2 * r.w)).sum := by
  induction l with
  | nil => simp
  | cons a t ih =>
    have ha : 0 ≤ a.w := hw a (by simp)
    have hwt : ∀ r ∈ t, 0 ≤ r.w := fun r hr => hw r (by simp [hr])
    have ihv := ih hwt
    have hW : 0 ≤ (t.map (fun r => r.w)).sum :=
      List.sum_nonneg (by intro x hx; obtain ⟨r, hr, rfl⟩ := List.mem_map.1 hx; exact hwt r hr)
    have hB : 0 ≤ (t.map (fun r => r.y ^ 2 * r.w)).sum :=
      List.sum_nonneg (by
        intro x hx; obtain ⟨r, hr, rfl⟩ := List.mem_map.1 hx
        exact mul_nonneg (sq_nonneg _) (hwt r hr))
    simp only [List.map_cons, List.sum_cons]
    set A := (t.map (fun r => r.y * r.w)).sum with hA
    set W := (t.map (fun r => r.w)).sum with hWd
    set B := (t.map (fun r => r.y ^ 2 * r.w)).sum with hBd
    rcases eq_or_lt_of_le hW with hW0 | hW0
    · have hA0 : A = 0 := by
        have : A ^ 2 ≤ 0 := by rw [← hW0] at ihv; simpa using ihv
        have h2 : A ^ 2 = 0 := le_antisymm this (sq_nonneg A)
        exact pow_eq_zero_iff (n := 2) (by norm_num) |>.1 h2
      rw [hA0, ← hW0]
      nlinarith [mul_nonneg ha hB, sq_nonneg (a.y * a.w)]
    · nlinarith [mul_nonneg ha (sq_nonneg (A - W * a.y)),
        mul_nonneg ha (sub_nonneg.2 ihv), mul_nonneg hW (sub_nonneg.2 ihv)]

/-- For nonnegative weights the sum of squares is bounded by the square of
the sum. -/
theorem list_sq_sum_le (l : List RRow) (hw : ∀ r ∈ l, 0 ≤ r.w) :
    (l.map (fun r => r.w * r.w)).sum
      ≤ (l.map (fun r => r.w)).sum * (l.map (fun r => r.w)).sum := by
  induction l with
  | nil => simp
  | cons a t ih =>
    have ha : 0 ≤ a.w := hw a (by simp)
    have hwt : ∀ r ∈ t, 0 ≤ r.w := fun r hr => hw r (by simp [hr])
    have ihv := ih hwt
    have hW : 0 ≤ (t.map (fun r => r.w)).sum :=
      List.sum_nonneg (by intro x hx; obtain ⟨r, hr, rfl⟩ := List.mem_map.1 hx; exact hwt r hr)
    simp only [List.map_cons, List.sum_cons]
    nlinarith [mul_nonneg ha hW]

/-- Inside bin `i` the normalised weight is the raw weight over the bin
total. -/
theorem normW_mem {rows : List RRow} {nbins i : ℕ} (hi : i < nbins) {r : RRow}
    (hr : r ∈ binRowsOf rows i) : normWOf rows nbins r = r.w / wtsSumOf rows i := by
  have hbn : r.bn = i + 1 := of_decide_eq_true (List.mem_filter.1 hr).2
  unfold normWOf
  rw [if_pos (by omega : 1 ≤ r.bn ∧ r.bn ≤ nbins), hbn]
  simp

/-- A weighted bin statistic is the raw weighted sum over the bin divided
by the bin weight total. -/
theorem wbs_eq {rows : List RRow} {nbins i : ℕ} (hi : i < nbins) (f : RRow → ℚ) :
    wbsOf rows nbins f i
      = ((binRowsOf rows i).map (fun r => f r * r.w)).sum / wtsSumOf rows i := by
  unfold wbsOf
  rw [show (binRowsOf rows i).map (fun r => f r * normWOf rows nbins r)
      = (binRowsOf rows i).map (fun r => (f r * r.w) / wtsSumOf rows i) from
    List.map_congr_left (fun r hr => by rw [normW_mem hi hr, mul_div_assoc])]
  exact list_sum_map_div _ _ _

/-- The binned sum of squared normalised weights in closed form. -/
theorem sumw2_eq {rows : List RRow} {nbins i : ℕ} (hi : i < nbins) :
    wbsOf rows nbins (fun r => normWOf rows nbins r) i
      = ((binRowsOf rows i).map (fun r => r.w * r.w)).sum
          / (wtsSumOf rows i * wtsSumOf rows i) := by
  unfold wbsOf
  rw [show (binRowsOf rows i).map (fun r => normWOf rows nbins r * normWOf rows nbins r)
      = (binRowsOf rows i).map
          (fun r => (r.w * r.w) / (wtsSumOf rows i * wtsSumOf rows i)) from
    List.map_congr_left (fun r hr => by rw [normW_mem hi hr, div_mul_div_comm])]
  exact list_sum_map_div _ _ _

/-- Every row produced by `mkRows` has a nonnegative weight when the
supplied weights are nonnegative (the default weight is `1`). -/
theorem mkRows_w_nonneg (xs ys edges : List ℚ) (yerr : Option (List ℚ))
    (weights : Option (List ℚ)) (hw : ∀ l, weights = some l → ∀ a ∈ l, 0 ≤ a) :
    ∀ r ∈ mkRows xs ys edges yerr weights, 0 ≤ r.w := by
  intro r hr
  rcases weights with _ | l
  · simp only [mkRows] at hr
    obtain ⟨⟨⟨x, y⟩, w, e⟩, hp, rfl⟩ := List.mem_map.1 hr
    have h3 := (List.of_mem_zip (List.of_mem_zip hp).2).1
    have := List.eq_of_mem_replicate h3
    simp [this]
  · simp only [mkRows] at hr
    obtain ⟨⟨⟨x, y⟩, w, e⟩, hp, rfl⟩ := List.mem_map.1 hr
    have h3 := (List.of_mem_zip (List.of_mem_zip hp).2).1
    exact hw l rfl w h3

/-- The weighted variance of any bin is nonnegative. -/
theorem stat_nonneg {rows : List RRow} {nbins i : ℕ} (hi : i < nbins)
    (hw : ∀ r ∈ rows, 0 ≤ r.w) :
    0 ≤ wbsOf rows nbins (fun r => r.y ^ 2) i
        - (wbsOf rows nbins (fun r => r.y) i) ^ 2 := by
  have hwM : ∀ r ∈ binRowsOf rows i, 0 ≤ r.w :=
    fun r hr => hw r (List.mem_filter.1 hr).1
  rw [wbs_eq hi, wbs_eq hi]
  have hSsum : wtsSumOf rows i = ((binRowsOf rows i).map (fun r => r.w)).sum := rfl
  have hSnn : 0 ≤ wtsSumOf rows i := by
    rw [hSsum]
    exact List.sum_nonneg (by
      intro x hx; obtain ⟨r, hr, rfl⟩ := List.mem_map.1 hx; exact hwM r hr)
  rcases eq_or_lt_of_le hSnn with hS0 | hSpos
  · have hz : ∀ r ∈ binRowsOf rows i, r.w = 0 := by
      intro r hr
      exact list_sum_zero_of_nonneg
        (l := (binRowsOf rows i).map (fun r => r.w))
        (by intro x hx; obtain ⟨r', hr', rfl⟩ := List.mem_map.1 hx; exact hwM r' hr')
        (by rw [← hSsum, ← hS0]) r.w (List.mem_map_of_mem _ hr)
    have h1 : ((binRowsOf rows i).map (fun r => r.y * r.w)).sum = 0 :=
      List.sum_eq_zero (by
        intro x hx; obtain ⟨r, hr, rfl⟩ := List.mem_map.1 hx
        rw [hz r hr, mul_zero])
    have h2 : ((binRowsOf rows i).map (fun r => r.y ^ 2 * r.w)).sum = 0 :=
      List.sum_eq_zero (by
        intro x hx; obtain ⟨r, hr, rfl⟩ := List.mem_map.1 hx
        rw [hz r hr, mul_zero])
    rw [h1, h2]
    simp
  · have hcs := list_weighted_cs (binRowsOf rows i) hwM
    rw [← hSsum] at hcs
    have h2 : (((binRowsOf rows i).map (fun r => r.y * r.w)).sum / wtsSumOf rows i) ^ 2
        ≤ ((binRowsOf rows i).map (fun r => r.y ^ 2 * r.w)).sum / wtsSumOf rows i := by
      rw [div_pow, div_le_div_iff₀ (by positivity) hSpos]
      nlinarith [hcs, hSpos, mul_le_mul_of_nonneg_right hcs hSnn]
    linarith [h2]

/-- The binned sum of squared normalised weights is at most one. -/
theorem sumw2_le_one {rows : List RRow} {nbins i : ℕ} (hi : i < nbins)
    (hw : ∀ r ∈ rows, 0 ≤ r.w) :
    wbsOf rows nbins (fun r => normWOf rows nbins r) i ≤ 1 := by
  have hwM : ∀ r ∈ binRowsOf rows i, 0 ≤ r.w :=
    fun r hr => hw r (List.mem_filter.1 hr).1
  rw [sumw2_eq hi]
  have hSsum : wtsSumOf rows i = ((binRowsOf rows i).map (fun r => r.w)).sum := rfl
  have hSnn : 0 ≤ wtsSumOf rows i := by
    rw [hSsum]
    exact List.sum_nonneg (by
      intro x hx; obtain ⟨r, hr, rfl⟩ := List.mem_map.1 hx; exact hwM r hr)
  rcases eq_or_lt_of_le hSnn with hS0 | hSpos
  · have hz : ∀ r ∈ binRowsOf rows i, r.w = 0 := by
      intro r hr
      exact list_sum_zero_of_nonneg
        (l := (binRowsOf rows i).map (fun r => r.w))
        (by intro x hx; obtain ⟨r', hr', rfl⟩ := List.mem_map.1 hx; exact hwM r' hr')
        (by rw [← hSsum, ← hS0]) r.w (List.mem_map_of_mem _ hr)
    have h1 : ((binRowsOf rows i).map (fun r => r.w * r.w)).sum = 0 :=
      List.sum_eq_zero (by
        intro x hx; obtain ⟨r, hr, rfl⟩ := List.mem_map.1 hx
        rw [hz r hr, mul_zero])
    rw [h1]
    simp
  · rw [div_le_one (by positivity)]
    have := list_sq_sum_le (binRowsOf rows i) hwM
    rw [← hSsum] at this
    exact this

/-! ## Claim C4 -/

/-- C4: for the same catalog and bins, on every bin with more than one
member, the error returned with `error_model='ste'` is at most the error
returned with `error_model='std'`: the `ste` squared error multiplies the
(nonnegative) weighted variance by the binned sum of squared normalised
weights, which is at most one for nonnegative weights. -/
theorem error_ste_le_error_std (xs ys edges : List ℚ)
    (yerr weights : Option (List ℚ))
    (hw : ∀ l, weights = some l → ∀ a ∈ l, 0 ≤ a) (i : ℕ)
    (hi : i < edges.length - 1)
    (_hocc : 1 < (raOf (compute_radial_averages xs ys edges yerr "ste" weights)).num_objects i) :
    err_y (raOf (compute_radial_averages xs ys edges yerr "ste" weights)) i
      ≤ err_y (raOf (compute_radial_averages xs ys edges yerr "std" weights)) i := by
  have h1 : (raOf (compute_radial_averages xs ys edges yerr "ste" weights)).err_y_sq i
      = (wbsOf (mkRows xs ys edges yerr weights) (edges.length - 1) (fun r => r.y ^ 2) i
          - (wbsOf (mkRows xs ys edges yerr weights) (edges.length - 1) (fun r => r.y) i) ^ 2)
          * wbsOf (mkRows xs ys edges yerr weights) (edges.length - 1)
              (fun r => normWOf (mkRows xs ys edges yerr weights) (edges.length - 1) r) i
        + wbsOf (mkRows xs ys edges yerr weights) (edges.length - 1)
            (fun r => r.e ^ 2 * normWOf (mkRows xs ys edges yerr weights) (edges.length - 1) r) i := rfl
  have h2 : (raOf (compute_radial_averages xs ys edges yerr "std" weights)).err_y_sq i
      = (wbsOf (mkRows xs ys edges yerr weights) (edges.length - 1) (fun r => r.y ^ 2) i
          - (wbsOf (mkRows xs ys edges yerr weights) (edges.length - 1) (fun r => r.y) i) ^ 2)
        + wbsOf (mkRows xs ys edges yerr weights) (edges.length - 1)
            (fun r => r.e ^ 2 * normWOf (mkRows xs ys edges yerr weights) (edges.length - 1) r) i := rfl
  have hwr := mkRows_w_nonneg xs ys edges yerr weights hw
  have hstat := @stat_nonneg (mkRows xs ys edges yerr weights) (edges.length - 1) i hi hwr
  have hs2 := @sumw2_le_one (mkRows xs ys edges yerr weights) (edges.length - 1) i hi hwr
  unfold err_y
  apply Real.sqrt_le_sqrt
  rw [h1, h2]
  have hq : (wbsOf (mkRows xs ys edges yerr weights) (edges.length - 1) (fun r => r.y ^ 2) i
          - (wbsOf (mkRows xs ys edges yerr weights) (edges.length - 1) (fun r => r.y) i) ^ 2)
          * wbsOf (mkRows xs ys edges yerr weights) (edges.length - 1)
              (fun r => normWOf (mkRows xs ys edges yerr weights) (edges.length - 1) r) i
        + wbsOf (mkRows xs ys edges yerr weights) (edges.length - 1)
            (fun r => r.e ^ 2 * normWOf (mkRows xs ys edges yerr weights) (edges.length - 1) r) i
      ≤ (wbsOf (mkRows xs ys edges yerr weights) (edges.length - 1) (fun r => r.y ^ 2) i
          - (wbsOf (mkRows xs ys edges yerr weights) (edges.length - 1) (fun r => r.y) i) ^ 2)
        + wbsOf (mkRows xs ys edges yerr weights) (edges.length - 1)
            (fun r => r.e ^ 2 * normWOf (mkRows xs ys edges yerr weights) (edges.length - 1) r) i := by
    have := mul_le_of_le_one_right hstat hs2
    linarith
  exact_mod_cast hq

/-- C4 witness: a concrete two-object bin where the standard-error bound
applies. -/
theorem error_ste_le_error_std_witness :
    1 < (raOf (compute_radial_averages [1, 2] [0, 3] [0, 10] none "ste" (some [1, 1]))).num_objects 0 ∧
    err_y (raOf (compute_radial_averages [1, 2] [0, 3] [0, 10] none "ste" (some [1, 1]))) 0
      ≤ err_y (raOf (compute_radial_averages [1, 2] [0, 3] [0, 10] none "std" (some [1, 1]))) 0 := by
  refine ⟨by decide, error_ste_le_error_std [1, 2] [0, 3] [0, 10] none (some [1, 1])
    ?_ 0 (by decide) (by decide)⟩
  intro l hl
  injection hl with h
  subst h
  intro a ha
  have h1 : a = 1 ∨ a = 1 := by simpa using ha
  rcases h1 with rfl | rfl <;> norm_num

/-! ## Claim C5 -/

/-- C5: binning with `weights=None` returns exactly the same outputs as
binning with an all-ones weight array of matching length: the default
weight is one per object, so the assembled rows coincide definitionally. -/
theorem weights_none_eq_ones (xs ys edges : List ℚ) (yerr : Option (List ℚ))
    (error_model : String) :
    compute_radial_averages xs ys edges yerr error_model none
      = compute_radial_averages xs ys edges yerr error_model
          (some (List.replicate xs.length 1)) := rfl

/-! ## Claim C8 -/

/-- C8 counterexample: with `include_empty_bins=True` a bin holding a
single galaxy keeps its one-element ID list, so bins with at most one
member are not excluded regardless of that flag. -/
theorem gal_ids_singleton_kept :
    gal_ids_in_bins [7] [1] 2 true = [[7], []] ∧
    [7] ∈ gal_ids_in_bins [7] [1] 2 true ∧ ([7] : List ℤ).length ≤ 1 := by
  decide

/-- C8 amended: bins with one or zero members are excluded from the
galaxy-ID lists exactly when `include_empty_bins` is false; with
`include_empty_bins=True` one list per bin is returned, including bins
with at most one member. -/
theorem gal_ids_occupancy_filter (ids : List ℤ) (binnumber : List ℕ) (nbins : ℕ) :
    (∀ g ∈ gal_ids_in_bins ids binnumber nbins false, 1 < g.length) ∧
    (gal_ids_in_bins ids binnumber nbins true).length = nbins := by
  constructor
  · intro g hg
    simp only [gal_ids_in_bins, if_neg (by simp : ¬ (false = true))] at hg
    exact of_decide_eq_true (List.mem_filter.1 hg).2
  · simp [gal_ids_in_bins]

/-! ## Claim C6 -/

/-- No log-spaced edge array can start at zero: the geometric condition
forces the second edge to vanish, contradicting strict monotonicity. -/
theorem not_logspaced_from_zero (rmax : ℝ) (n : ℕ) (l : List ℝ)
    (hn : 2 ≤ n) : ¬ IsLogSpacedEdges 0 rmax n l := by
  rintro ⟨hlen, hhead, hlast, hchain, hgeo⟩
  rcases l with _ | ⟨a, _ | ⟨b, _ | ⟨c, t⟩⟩⟩
  · simp at hlen
  · simp at hlen; omega
  · simp at hlen; omega
  · have ha : a = 0 := by simpa using hhead
    have hab : a < b := (List.chain'_cons.1 hchain).1
    have hb : b * b = a * c := by
      have := hgeo 0 (by simp)
      simpa using this
    have hb0 : b = 0 := by
      rw [ha, zero_mul] at hb
      exact mul_self_eq_zero.1 hb
    rw [ha, hb0] at hab
    exact lt_irrefl 0 hab

/-- C6: `make_bins` raises a precondition error whenever `rmin > rmax` or
either endpoint is negative, and (that passing) whenever `nbins <= 0`;
the `evenlog10width` method does not reject `rmin = 0` (no exception is
raised) but whatever edge list it then returns cannot be a valid
log-spaced edge array from `0` to a positive `rmax`. -/
theorem make_bins_preconditions (rmin rmax : ℚ) (nbins : ℤ) (method : String)
    (seps : Option (List ℚ)) :
    ((rmin > rmax ∨ rmin < 0 ∨ rmax < 0) →
      make_bins rmin rmax nbins method seps = .error "Invalid bin endpoints in make_bins") ∧
    (¬ (rmin > rmax ∨ rmin < 0 ∨ rmax < 0) → nbins ≤ 0 →
      make_bins rmin rmax nbins method seps
        = .error "Invalid nbins. Must be integer greater than 0.") ∧
    (0 ≤ rmax → 0 < nbins →
      ∃ l, make_bins 0 rmax nbins "evenlog10width" seps = .ok l) ∧
    (2 ≤ nbins → ∀ l, make_bins 0 rmax nbins "evenlog10width" seps = .ok l →
      ¬ IsLogSpacedEdges 0 (rmax : ℝ) nbins.toNat l) := by
  refine ⟨?_, ?_, ?_, ?_⟩
  · intro h
    unfold make_bins
    rw [if_pos h]
  · intro h1 h2
    unfold make_bins
    rw [if_neg h1, if_pos h2]
  · intro h1 h2
    refine ⟨logspace10 (Real.logb 10 ((0 : ℚ) : ℝ)) (Real.logb 10 (rmax : ℝ)) nbins, ?_⟩
    unfold make_bins
    rw [if_neg (by push_neg; exact ⟨h1, le_refl 0, h1⟩), if_neg (by omega)]
    rfl
  · intro h2 l _
    exact not_logspaced_from_zero (rmax : ℝ) nbins.toNat l (by omega)

/-- C6 witness: concrete instances of the three error and no-error arms. -/
theorem make_bins_preconditions_witness :
    make_bins 3 1 5 "evenwidth" none = .error "Invalid bin endpoints in make_bins" ∧
    make_bins 1 2 0 "evenwidth" none = .error "Invalid nbins. Must be integer greater than 0." ∧
    (∃ l, make_bins 0 5 3 "evenlog10width" none = .ok l) ∧
    ¬ IsLogSpacedEdges 0 ((5 : ℚ) : ℝ) (3 : ℤ).toNat
        (logspace10 (Real.logb 10 ((0 : ℚ) : ℝ)) (Real.logb 10 ((5 : ℚ) : ℝ)) 3) := by
  refine ⟨(make_bins_preconditions 3 1 5 "evenwidth" none).1 (by norm_num),
    (make_bins_preconditions 1 2 0 "evenwidth" none).2.1 (by norm_num) (by norm_num),
    (make_bins_preconditions 0 5 3 "evenlog10width" none).2.2.1 (by norm_num) (by norm_num),
    (make_bins_preconditions 0 5 3 "evenlog10width" none).2.2.2 (by norm_num) _ ?_⟩
  unfold make_bins
  rw [if_neg (by norm_num), if_neg (by norm_num)]
  rfl

/-! ## Claim C7 -/

/-- C7: re-setting the halo profile with the identical (case-insensitively
compared) configuration while a profile object exists is a no-op — the
returned state is the input state for every possible rebuild function, so
no rebuild occurs; if no profile exists yet or any of the three
definitions differs, all three fields are set and the profile object is
re-derived through the rebuild function. -/
theorem set_halo_density_profile_noop_or_rebuild (s : HaloState)
    (upd : String → String → ℤ → ℕ) (hpm md : String) (dm : ℤ)
    (hok : s.validate_input = false ∨
      (0 < dm ∧ strLower md ∈ s.mdef_dict ∧ strLower hpm ∈ s.hdpm_dict)) :
    ((s.hdpm ≠ none ∧ s.halo_profile_model = strLower hpm ∧
        s.massdef = strLower md ∧ s.delta_mdef = dm) →
      set_halo_density_profile s upd hpm md dm = .ok s) ∧
    ((s.hdpm = none ∨ s.halo_profile_model ≠ strLower hpm ∨
        s.massdef ≠ strLower md ∨ s.delta_mdef ≠ dm) →
      set_halo_density_profile s upd hpm md dm =
        .ok { s with halo_profile_model := strLower hpm, massdef := strLower md,
                     delta_mdef := dm,
                     hdpm := some (upd (strLower hpm) (strLower md) dm) }) := by
  constructor
  · rintro ⟨h0, h1, h2, h3⟩
    have hcond : ¬ (s.hdpm = none ∨ s.halo_profile_model ≠ strLower hpm ∨
        s.massdef ≠ strLower md ∨ s.delta_mdef ≠ dm) := by
      push_neg
      exact ⟨h0, h1, h2, h3⟩
    unfold set_halo_density_profile
    rcases hok with hv | ⟨ha, hb, hc⟩
    · rw [hv]
      simp only [Bool.false_eq_true, if_false]
      rw [if_neg hcond]
    · rcases hv : s.validate_input with _ | _
      · simp only [Bool.false_eq_true, if_false]
        rw [if_neg hcond]
      · simp only [if_true]
        rw [if_neg (by omega), if_neg (not_not_intro hb), if_neg (not_not_intro hc),
          if_neg hcond]
  · intro hdiff
    unfold set_halo_density_profile
    rcases hok with hv | ⟨ha, hb, hc⟩
    · rw [hv]
      simp only [Bool.false_eq_true, if_false]
      rw [if_pos hdiff]
    · rcases hv : s.validate_input with _ | _
      · simp only [Bool.false_eq_true, if_false]
        rw [if_pos hdiff]
      · simp only [if_true]
        rw [if_neg (by omega), if_neg (not_not_intro hb), if_neg (not_not_intro hc),
          if_pos hdiff]

/-- C7 witness: a configured state re-set with the same configuration in a
different letter case is unchanged, and a changed overdensity triggers the
rebuild. -/
theorem set_halo_density_profile_noop_witness :
    set_halo_density_profile
      ⟨"mean", 200, "nfw", some 5, ["mean"], ["nfw"], true⟩
      (fun _ _ _ => 9) "NFW" "Mean" 200
      = .ok ⟨"mean", 200, "nfw", some 5, ["mean"], ["nfw"], true⟩ ∧
    set_halo_density_profile
      ⟨"mean", 200, "nfw", some 5, ["mean"], ["nfw"], true⟩
      (fun _ _ _ => 9) "NFW" "Mean" 500
      = .ok ⟨"mean", 500, "nfw", some 9, ["mean"], ["nfw"], true⟩ := by
  constructor
  · exact (set_halo_density_profile_noop_or_rebuild
      ⟨"mean", 200, "nfw", some 5, ["mean"], ["nfw"], true⟩ (fun _ _ _ => 9)
      "NFW" "Mean" 200 (Or.inr (by refine ⟨by norm_num, ?_, ?_⟩ <;> decide))).1
      (by refine ⟨by decide, ?_, ?_, rfl⟩ <;> decide)
  · exact (set_halo_density_profile_noop_or_rebuild
      ⟨"mean", 200, "nfw", some 5, ["mean"], ["nfw"], true⟩ (fun _ _ _ => 9)
      "NFW" "Mean" 500 (Or.inr (by refine ⟨by norm_num, ?_, ?_⟩ <;> decide))).2
      (by right; right; right; decide)

/-! ## Claim C9 -/

/-- C9 counterexample: with validation enabled, `eval_3d_density` raises at
the boundary `r3d = 0`, so it does not accept every `r3d >= 0` and the
domain error is not restricted to negative arguments (the range check is
strict: `min(r3d) <= 0` raises). -/
theorem eval_3d_density_zero_rejected :
    model0.validate_input = true ∧
    eval_3d_density model0 [0] 1 = .error "r3d must be greater than 0" ∧
    eval_3d_density model0 [1] 0 = .error "z_cl must be greater than 0" := by
  refine ⟨rfl, ?_, ?_⟩ <;> rfl

/-- C9 amended: with validation enabled, `eval_3d_density` accepts every
strictly positive `r3d` and `z_cluster` and delegates elementwise to the
profile-family closed form; it raises a domain error exactly when some
`r3d` entry or `z_cluster` is nonpositive, before any computation and
without touching any state (the embedding is pure and the error branch
returns no value). -/
theorem eval_3d_density_domain (M : CLMModel) (r3d : List ℚ) (z_cl : ℚ)
    (hval : M.validate_input = true) :
    ((∀ a ∈ r3d, 0 < a) → 0 < z_cl →
      eval_3d_density M r3d z_cl = .ok (r3d.map (fun a => M.eval_3d_density_impl a z_cl))) ∧
    ((∃ a ∈ r3d, a ≤ 0) ∨ z_cl ≤ 0 →
      ∃ e, eval_3d_density M r3d z_cl = .error e) := by
  constructor
  · intro hr hz
    unfold eval_3d_density
    rw [hval]
    simp only [if_true]
    rw [if_neg ?_, if_neg (not_le.2 hz)]
    simp only [List.any_eq_true, decide_eq_true_eq, not_exists, not_and]
    intro a ha
    exact not_le.2 (hr a ha)
  · intro h
    unfold eval_3d_density
    rw [hval]
    simp only [if_true]
    rcases h with ⟨a, ha, hle⟩ | hz
    · rw [if_pos (by simp only [List.any_eq_true, decide_eq_true_eq]; exact ⟨a, ha, hle⟩)]
      exact ⟨_, rfl⟩
    · by_cases hr : r3d.any (fun a => decide (a ≤ 0))
      · rw [if_pos hr]
        exact ⟨_, rfl⟩
      · rw [if_neg hr, if_pos hz]
        exact ⟨_, rfl⟩

/-- C9 witness: concrete acceptance and rejection through the amended
theorem. -/
theorem eval_3d_density_domain_witness :
    eval_3d_density model0 [2] 1 = .ok [2] ∧
    (∃ e, eval_3d_density model0 [0] 1 = .error e) := by
  constructor
  · have := (eval_3d_density_domain model0 [2] 1 rfl).1
      (by intro a ha; rw [show a = 2 by simpa using ha]; norm_num) (by norm_num)
    simpa using this
  · exact (eval_3d_density_domain model0 [0] 1 rfl).2 (Or.inl ⟨0, by simp, le_refl 0⟩)


/-! ## Claim C10 -/

/-- A single pair of conditional 360-degree shifts lands in the window
`[lo, lo+360)` exactly for inputs within one period of it. -/
theorem raShift_window (lo x : ℚ) (h1 : lo - 360 ≤ x) (h2 : x < lo + 720) :
    lo ≤ raShift lo x ∧ raShift lo x < lo + 360 := by
  simp only [raShift]
  split_ifs <;> constructor <;> linarith

/-- C10 counterexample: a catalog right ascension of `-500` ends at `-140`
after construction, outside the claimed window `[0, 360)` — the single
conditional shift pass of `set_ra_lower` does not normalise catalog values
more than one period away, and the constructor never range-checks them. -/
theorem galcat_ra_not_normalised :
    (GalaxyCluster_init "c" 10 0 1 ⟨[-500]⟩).toOption.map (fun c => c.galcat.ra)
      = some [-140] ∧ ¬ ((0 : ℚ) ≤ -140) := by
  constructor
  · have h1 : GalaxyCluster_init "c" 10 0 1 ⟨[-500]⟩
        = .ok ⟨"c", raShift 0 10, 0, 1, ⟨[raShift 0 (-500)]⟩⟩ := rfl
    rw [h1]
    show some [raShift 0 (-500)] = some [-140]
    norm_num [raShift]
  · norm_num

/-- C10 amended: after a full construction the cluster right ascension is
in `[0, 360)`, and so is every catalog `ra` value that started within one
period of that window (in `[-360, 720)`) — farther values are shifted by
at most one period and can remain outside.  `set_ra_lower` with `ra_low`
in `{0, -180}` shifts every stored `ra`, landing values within one period
of the window `[ra_low, ra_low+360)` inside it, and any other `ra_low`
raises an error without producing a modified cluster. -/
theorem ra_window_invariant (uid : String) (ra dec z : ℚ) (gc : GCDataM)
    (c : GalaxyClusterM) (hinit : GalaxyCluster_init uid ra dec z gc = .ok c) :
    (0 ≤ c.ra ∧ c.ra < 360) ∧
    (∀ v ∈ c.galcat.ra, ∃ x ∈ gc.ra, v = raShift 0 x) ∧
    (∀ x ∈ gc.ra, -360 ≤ x → x < 720 → 0 ≤ raShift 0 x ∧ raShift 0 x < 360) ∧
    (∀ (d : GalaxyClusterM) (ra_low : ℚ), (ra_low = 0 ∨ ra_low = -180) →
      ∃ d', set_ra_lower d ra_low = .ok d' ∧ d'.ra = raShift ra_low d.ra ∧
        d'.galcat.ra = d.galcat.ra.map (raShift ra_low) ∧
        (ra_low - 360 ≤ d.ra → d.ra < ra_low + 720 →
          ra_low ≤ d'.ra ∧ d'.ra < ra_low + 360)) ∧
    (∀ (d : GalaxyClusterM) (ra_low : ℚ), ra_low ≠ 0 → ra_low ≠ -180 →
      set_ra_lower d ra_low = .error "ra_low must be -180 or 0") := by
  have hck : ¬ (ra < -360 ∨ 360 < ra) ∧ c = ⟨uid, raShift 0 ra, dec, z,
      ⟨gc.ra.map (raShift 0)⟩⟩ := by
    unfold GalaxyCluster_init check_types at hinit
    by_cases hA : ra < -360 ∨ 360 < ra
    · rw [if_pos hA] at hinit; cases hinit
    · rw [if_neg hA] at hinit
      by_cases hB : dec < -90 ∨ 90 < dec
      · rw [if_pos hB] at hinit; cases hinit
      · rw [if_neg hB] at hinit
        by_cases hC : z < 0
        · rw [if_pos hC] at hinit; cases hinit
        · rw [if_neg hC] at hinit
          unfold set_ra_lower at hinit
          rw [if_neg (by simp)] at hinit
          cases hinit
          exact ⟨hA, rfl⟩
  have hra : -360 ≤ ra ∧ ra ≤ 360 := by
    have h := hck.1
    push_neg at h
    exact ⟨h.1, h.2⟩
  refine ⟨?_, ?_, ?_, ?_, ?_⟩
  · rw [hck.2]
    have h := raShift_window 0 ra (by linarith [hra.1]) (by linarith [hra.2])
    simpa using h
  · intro v hv
    rw [hck.2] at hv
    simp only [List.mem_map] at hv
    obtain ⟨x, hx, rfl⟩ := hv
    exact ⟨x, hx, rfl⟩
  · intro x _ hx1 hx2
    have h := raShift_window 0 x (by linarith) (by linarith)
    simpa using h
  · intro d ra_low hlow
    refine ⟨⟨d.unique_id, raShift ra_low d.ra, d.dec, d.z,
      ⟨d.galcat.ra.map (raShift ra_low)⟩⟩, ?_, rfl, rfl, ?_⟩
    · unfold set_ra_lower
      rw [if_neg (by rcases hlow with rfl | rfl <;> simp)]
    · intro hd1 hd2
      exact raShift_window ra_low d.ra hd1 hd2
  · intro d ra_low h0 h180
    unfold set_ra_lower
    rw [if_pos ⟨h180, h0⟩]

/-- C10 witness: a concrete construction giving an in-window cluster, and
a rejected `ra_low`. -/
theorem ra_window_invariant_witness :
    (0 ≤ raShift 0 (-10) ∧ raShift 0 (-10) < 360) ∧
    set_ra_lower ⟨"c", raShift 0 (-10), 0, 1, ⟨[raShift 0 350]⟩⟩ (-90)
      = .error "ra_low must be -180 or 0" := by
  have h := ra_window_invariant "c" (-10) 0 1 ⟨[350]⟩
    ⟨"c", raShift 0 (-10), 0, 1, ⟨[raShift 0 350]⟩⟩ rfl
  exact ⟨h.1, h.2.2.2.2 ⟨"c", raShift 0 (-10), 0, 1, ⟨[raShift 0 350]⟩⟩ (-90)
    (by norm_num) (by norm_num)⟩


/-! ## Claim C1 -/

/-- With positive discrete redshifts the `z_src` payload validation
passes. -/
theorem payloadCheck_discrete_ok (zs : List ℚ) (hzs : ∀ a ∈ zs, 0 < a) :
    payloadCheck "discrete" (.vals zs) = .ok () := by
  have hany : zs.any (fun a => decide (a ≤ 0)) = false := by
    rw [List.any_eq_false]
    intro a ha
    simpa using not_le.2 (hzs a ha)
  unfold payloadCheck
  rw [if_pos rfl]
  simp [hany]

/-- With positive discrete redshifts and no `approx` the full `z_src`
validation passes. -/
theorem validate_z_src_discrete_ok (zs : List ℚ) (hzs : ∀ a ∈ zs, 0 < a) :
    validate_z_src "discrete" (.vals zs) none = .ok () := by
  unfold validate_z_src
  rw [payloadCheck_discrete_ok zs hzs]
  rfl

/-- The common validation prefix passes for positive radius and cluster
redshift whenever the `z_src` validation does. -/
theorem lensValidate_ok {M : CLMModel} {r z_cl : ℚ} {info : String} {z : ZSrc}
    {approx : Option String} (hr : 0 < r) (hz : 0 < z_cl)
    (hv : validate_z_src info z approx = .ok ()) :
    lensValidate M r z_cl info z approx = .ok () := by
  unfold lensValidate
  cases hb : M.validate_input with
  | false => rfl
  | true => rw [if_pos rfl, if_neg (not_le.2 hr), if_neg (not_le.2 hz)]; exact hv

/-- C1 amended: with validation enabled (its domain checks are strict, so
`r_proj`, `z_cl` and all discrete source redshifts must be positive),
every source with `z_src <= z_cl` in discrete mode is masked to the
lensing-null value — `0` for tangential shear, convergence and reduced
shear, `1` for magnification and magnification bias — and the warning
flag is raised instead of an exception, regardless of radius. -/
theorem discrete_foreground_masked (M : CLMModel) (r z_cl : ℚ) (zs : List ℚ)
    (alpha : ℚ) (bk : Option BetaKwargs) (i : ℕ)
    (hr : 0 < r) (hz : 0 < z_cl) (hpos : ∀ a ∈ zs, 0 < a)
    (hi : i < zs.length) (hbad : zs[i] ≤ z_cl) :
    (∃ out warn, eval_tangential_shear M r z_cl (.vals zs) "discrete" bk
      = .ok (.discreteOut out warn) ∧ out[i]? = some 0 ∧ warn = true) ∧
    (∃ out warn, eval_convergence M r z_cl (.vals zs) "discrete" bk
      = .ok (.discreteOut out warn) ∧ out[i]? = some 0 ∧ warn = true) ∧
    (∃ out warn, eval_reduced_tangential_shear M r z_cl (.vals zs) "discrete" none bk
      = .ok (.discreteOut out warn) ∧ out[i]? = some 0 ∧ warn = true) ∧
    (∃ out warn, eval_magnification M r z_cl (.vals zs) "discrete" none bk
      = .ok (.discreteOut out warn) ∧ out[i]? = some 1 ∧ warn = true) ∧
    (∃ out warn, eval_magnification_bias M r z_cl (.vals zs) alpha "discrete" none bk
      = .ok (.discreteOut out warn) ∧ out[i]? = some 1 ∧ warn = true) := by
  have hlv : ∀ ap : Option String, lensValidate M r z_cl "discrete" (.vals zs) ap
      = .ok () → True := fun _ _ => trivial
  have hvz := validate_z_src_discrete_ok zs hpos
  have hout : ∀ (core : ℚ → ℚ) (mis : ℚ),
      (zs.map fun zz => if z_cl < zz then core zz else mis)[i]? = some mis := by
    intro core mis
    rw [List.getElem?_map, List.getElem?_eq_getElem hi]
    simp only [Option.map_some']
    rw [if_neg (not_lt.2 hbad)]
  have hwarn : (zs.any fun zz => decide (zz ≤ z_cl)) = true := by
    rw [List.any_eq_true]
    exact ⟨zs[i], List.getElem_mem hi, by simpa using hbad⟩
  refine ⟨⟨zs.map (fun zz => if z_cl < zz then eval_tangential_shear_core M r z_cl zz else 0),
      zs.any (fun zz => decide (zz ≤ z_cl)), ?_, hout _ 0, hwarn⟩,
    ⟨zs.map (fun zz => if z_cl < zz then eval_convergence_core M r z_cl zz else 0),
      zs.any (fun zz => decide (zz ≤ z_cl)), ?_, hout _ 0, hwarn⟩,
    ⟨zs.map (fun zz => if z_cl < zz then eval_reduced_tangential_shear_core M r z_cl zz else 0),
      zs.any (fun zz => decide (zz ≤ z_cl)), ?_, hout _ 0, hwarn⟩,
    ⟨zs.map (fun zz => if z_cl < zz then eval_magnification_core M r z_cl zz else 1),
      zs.any (fun zz => decide (zz ≤ z_cl)), ?_, hout _ 1, hwarn⟩,
    ⟨zs.map (fun zz => if z_cl < zz then eval_magnification_bias_core M r z_cl zz alpha else 1),
      zs.any (fun zz => decide (zz ≤ z_cl)), ?_, hout _ 1, hwarn⟩⟩
  · unfold eval_tangential_shear
    rw [lensValidate_ok hr hz hvz]
    rfl
  · unfold eval_convergence
    rw [lensValidate_ok hr hz hvz]
    rfl
  · unfold eval_reduced_tangential_shear
    rw [lensValidate_ok hr hz hvz]
    rfl
  · unfold eval_magnification
    rw [lensValidate_ok hr hz hvz]
    rfl
  · unfold eval_magnification_bias
    rw [lensValidate_ok hr hz hvz]
    rfl

/-- C1 witness: two sources at redshifts `2` and `1/2` behind and in front
of a cluster at redshift `1`: the foreground one is masked to zero shear
with a warning. -/
theorem discrete_foreground_masked_witness :
    (∃ out warn, eval_tangential_shear model0 1 1 (.vals [2, 1/2]) "discrete" none
      = .ok (.discreteOut out warn) ∧ out[1]? = some 0 ∧ warn = true) ∧
    (∃ out warn, eval_magnification_bias model0 1 1 (.vals [2, 1/2]) 3 "discrete" none none
      = .ok (.discreteOut out warn) ∧ out[1]? = some 1 ∧ warn = true) := by
  have h := discrete_foreground_masked model0 1 1 [2, 1/2] 3 none 1
    (by norm_num) (by norm_num)
    (by
      intro a ha
      rcases (by simpa using ha : a = 2 ∨ a = 1/2) with rfl | rfl <;> norm_num)
    (by norm_num)
    (by show (1 : ℚ)/2 ≤ 1; norm_num)
  exact ⟨h.1, h.2.2.2.2⟩

/-- C1 counterexample: with validation enabled (the default), a source at
`z_src = 0 <= z_cl` makes `eval_tangential_shear` raise a domain error
instead of returning `0` with a warning, because the discrete-mode
validation requires strictly positive source redshifts. -/
theorem discrete_zero_redshift_raises :
    model0.validate_input = true ∧
    eval_tangential_shear model0 1 1 (.vals [0]) "discrete" none
      = .error "z_src must be greater than 0" := by
  exact ⟨rfl, rfl⟩

/-! ## Claim C2 -/

/-- Validation with no `approx` succeeding means the payload check
succeeded. -/
theorem payload_of_validate_none {info : String} {z : ZSrc}
    (h : validate_z_src info z none = .ok ()) : payloadCheck info z = .ok () := by
  unfold validate_z_src at h
  rcases hp : payloadCheck info z with e | u
  · rw [hp] at h; cases h
  · cases u; rfl

/-- The `z_src` validation raises the pairing configuration error when a
truthy `approx` meets a `z_src_info` outside distribution/beta. -/
theorem validate_z_src_pair_error {info : String} {z : ZSrc} {ap : Option String}
    (hpay : payloadCheck info z = .ok ()) (ht : approxTruthy ap = true)
    (hd : info ≠ "distribution") (hb : info ≠ "beta") :
    validate_z_src info z ap = .error pairMsg := by
  unfold validate_z_src
  rw [hpay]
  rw [if_pos ⟨ht, hd, hb⟩]

/-- The `z_src` validation passes when the payload check passes and the
pairing condition cannot fire. -/
theorem validate_z_src_ok_of_payload {info : String} {z : ZSrc} {ap : Option String}
    (hpay : payloadCheck info z = .ok ())
    (h : approxTruthy ap = false ∨ info = "distribution" ∨ info = "beta") :
    validate_z_src info z ap = .ok () := by
  unfold validate_z_src
  rw [hpay]
  rw [if_neg ?_]
  rintro ⟨h1, h2, h3⟩
  rcases h with h | h | h
  · rw [h] at h1; cases h1
  · exact h2 h
  · exact h3 h

/-- With validation on, positive arguments and a valid payload, the common
validation prefix propagates the pairing configuration error. -/
theorem lensValidate_pair_error {M : CLMModel} {r z_cl : ℚ} {info : String}
    {z : ZSrc} {ap : Option String} (hval : M.validate_input = true)
    (hr : 0 < r) (hz : 0 < z_cl) (hpay : payloadCheck info z = .ok ())
    (ht : approxTruthy ap = true) (hd : info ≠ "distribution")
    (hb : info ≠ "beta") :
    lensValidate M r z_cl info z ap = .error pairMsg := by
  unfold lensValidate
  rw [hval, if_pos rfl, if_neg (not_le.2 hr), if_neg (not_le.2 hz)]
  exact validate_z_src_pair_error hpay ht hd hb

/-- C2 amended: with input validation enabled and otherwise-valid
arguments, for `eval_reduced_tangential_shear`, `eval_magnification` and
`eval_magnification_bias`: `approx` in `{order1, order2}` with
`z_src_info` outside `{distribution, beta}` raises the pairing
configuration error; `approx=None` with `z_src_info='beta'` raises the
configuration error of the `approx=None` fallback; any other non-`None`,
non-empty `approx` raises the unsupported-approx error when `z_src_info`
is in `{distribution, beta}`, and the pairing configuration error
otherwise; the empty-string `approx` (falsy in Python) always reaches the
unsupported-approx error.  In every case the function returns an error and
no observable value. -/
theorem approx_pairing_errors (M : CLMModel) (r z_cl : ℚ) (z : ZSrc)
    (info : String) (a : String) (alpha : ℚ) (bk : Option BetaKwargs)
    (hval : M.validate_input = true) (hr : 0 < r) (hz : 0 < z_cl)
    (hpay : validate_z_src info z none = .ok ()) :
    ((a = "order1" ∨ a = "order2") → info ≠ "distribution" → info ≠ "beta" →
      eval_reduced_tangential_shear M r z_cl z info (some a) bk = .error pairMsg ∧
      eval_magnification M r z_cl z info (some a) bk = .error pairMsg ∧
      eval_magnification_bias M r z_cl z alpha info (some a) bk = .error pairMsg) ∧
    (info = "beta" →
      eval_reduced_tangential_shear M r z_cl z info none bk = .error approxNoneMsg ∧
      eval_magnification M r z_cl z info none bk = .error approxNoneMsg ∧
      eval_magnification_bias M r z_cl z alpha info none bk = .error approxNoneMsg) ∧
    (a ≠ "order1" → a ≠ "order2" → a ≠ "" → (info = "distribution" ∨ info = "beta") →
      eval_reduced_tangential_shear M r z_cl z info (some a) bk = .error unsupApproxMsg ∧
      eval_magnification M r z_cl z info (some a) bk = .error unsupApproxMsg ∧
      eval_magnification_bias M r z_cl z alpha info (some a) bk = .error unsupApproxMsg) ∧
    (a ≠ "order1" → a ≠ "order2" → a ≠ "" → info ≠ "distribution" → info ≠ "beta" →
      eval_reduced_tangential_shear M r z_cl z info (some a) bk = .error pairMsg ∧
      eval_magnification M r z_cl z info (some a) bk = .error pairMsg ∧
      eval_magnification_bias M r z_cl z alpha info (some a) bk = .error pairMsg) ∧
    (eval_reduced_tangential_shear M r z_cl z info (some "") bk = .error unsupApproxMsg ∧
      eval_magnification M r z_cl z info (some "") bk = .error unsupApproxMsg ∧
      eval_magnification_bias M r z_cl z alpha info (some "") bk = .error unsupApproxMsg) := by
  have hpc := payload_of_validate_none hpay
  refine ⟨?_, ?_, ?_, ?_, ?_⟩
  · intro ha hd hb
    have ht : approxTruthy (some a) = true := by
      rcases ha with rfl | rfl <;> rfl
    have hlv := @lensValidate_pair_error M r z_cl info z (some a)
      hval hr hz hpc ht hd hb
    refine ⟨?_, ?_, ?_⟩
    · unfold eval_reduced_tangential_shear; rw [hlv]
    · unfold eval_magnification; rw [hlv]
    · unfold eval_magnification_bias; rw [hlv]
  · intro hbeta
    subst hbeta
    have hlv := lensValidate_ok (M := M) hr hz hpay
    refine ⟨?_, ?_, ?_⟩
    · unfold eval_reduced_tangential_shear; rw [hlv]; rfl
    · unfold eval_magnification; rw [hlv]; rfl
    · unfold eval_magnification_bias; rw [hlv]; rfl
  · intro h1 h2 h3 hdb
    have ht : approxTruthy (some a) = true := by
      show (if a = "" then false else true) = true
      rw [if_neg h3]
    have hlv := @lensValidate_ok M r z_cl info z (some a) hr hz
      (validate_z_src_ok_of_payload hpc (Or.inr hdb))
    have hno : ¬ (a = "order1" ∨ a = "order2") := by
      rintro (h | h)
      · exact h1 h
      · exact h2 h
    refine ⟨?_, ?_, ?_⟩
    · unfold eval_reduced_tangential_shear; rw [hlv]
      show (if a = "order1" ∨ a = "order2" then _ else _) = _
      rw [if_neg hno]
    · unfold eval_magnification; rw [hlv]
      show (if a = "order1" ∨ a = "order2" then _ else _) = _
      rw [if_neg hno]
    · unfold eval_magnification_bias; rw [hlv]
      show (if a = "order1" ∨ a = "order2" then _ else _) = _
      rw [if_neg hno]
  · intro h1 h2 h3 hd hb
    have ht : approxTruthy (some a) = true := by
      show (if a = "" then false else true) = true
      rw [if_neg h3]
    have hlv := @lensValidate_pair_error M r z_cl info z (some a)
      hval hr hz hpc ht hd hb
    refine ⟨?_, ?_, ?_⟩
    · unfold eval_reduced_tangential_shear; rw [hlv]
    · unfold eval_magnification; rw [hlv]
    · unfold eval_magnification_bias; rw [hlv]
  · have hlv := @lensValidate_ok M r z_cl info z (some "") hr hz
      (validate_z_src_ok_of_payload hpc (Or.inl rfl))
    refine ⟨?_, ?_, ?_⟩
    · unfold eval_reduced_tangential_shear; rw [hlv]; rfl
    · unfold eval_magnification; rw [hlv]; rfl
    · unfold eval_magnification_bias; rw [hlv]; rfl

/-- C2 counterexample: `approx='order3'` with `z_src_info='discrete'`
raises the pairing configuration error from `_validate_z_src`, not the
unsupported-approx error the claim asserts for any other non-None
`approx`. -/
theorem approx_order3_discrete_pairing :
    eval_reduced_tangential_shear model0 1 1 (.vals [2]) "discrete" (some "order3") none
      = .error pairMsg ∧ pairMsg ≠ unsupApproxMsg := by
  exact ⟨rfl, by decide⟩

/-- C2 witness: one concrete instance of each amended error arm. -/
theorem approx_pairing_errors_witness :
    eval_reduced_tangential_shear model0 1 1 (.vals [2]) "discrete" (some "order1") none
      = .error pairMsg ∧
    eval_reduced_tangential_shear model0 1 1 (.betaPair 1 1) "beta" none none
      = .error approxNoneMsg ∧
    eval_magnification_bias model0 1 1 (.betaPair 1 1) 2 "beta" (some "order3") none
      = .error unsupApproxMsg := by
  refine ⟨?_, ?_, ?_⟩
  · exact ((approx_pairing_errors model0 1 1 (.vals [2]) "discrete" "order1" 2 none
      rfl one_pos one_pos rfl).1 (Or.inl rfl) (by decide) (by decide)).1
  · exact ((approx_pairing_errors model0 1 1 (.betaPair 1 1) "beta" "order3" 2 none
      rfl one_pos one_pos rfl).2.1 rfl).1
  · exact ((approx_pairing_errors model0 1 1 (.betaPair 1 1) "beta" "order3" 2 none
      rfl one_pos one_pos rfl).2.2.1 (by decide) (by decide) (by decide) (Or.inr rfl)).2.2

/-! ## Claim C3 -/

/-- Closed forms of the magnification bias on the literal-moment (`beta`)
path: the `order1` expansion and the `order2` expansion with its extra
second-order terms. -/
theorem mag_bias_beta_order_forms (M : CLMModel) (r z_cl bs bs2 alpha : ℚ)
    (bk : Option BetaKwargs) (hr : 0 < r) (hz : 0 < z_cl) :
    eval_magnification_bias M r z_cl (.betaPair bs bs2) alpha "beta" (some "order1") bk
      = .ok (.avgOut (1 + (alpha - 1) * (2 * bs * eval_convergence_core M r z_cl M.z_inf))) ∧
    eval_magnification_bias M r z_cl (.betaPair bs bs2) alpha "beta" (some "order2") bk
      = .ok (.avgOut (1 + (alpha - 1) * (2 * bs * eval_convergence_core M r z_cl M.z_inf)
        + (alpha - 1) * (bs2 * (eval_tangential_shear_core M r z_cl M.z_inf) ^ 2)
        + (2 * alpha - 1) * (alpha - 1) * bs2 * (eval_convergence_core M r z_cl M.z_inf) ^ 2)) := by
  have hlv1 := @lensValidate_ok M r z_cl "beta" (.betaPair bs bs2) (some "order1") hr hz
    (@validate_z_src_ok_of_payload "beta" (.betaPair bs bs2) (some "order1") rfl
      (Or.inr (Or.inr rfl)))
  have hlv2 := @lensValidate_ok M r z_cl "beta" (.betaPair bs bs2) (some "order2") hr hz
    (@validate_z_src_ok_of_payload "beta" (.betaPair bs bs2) (some "order2") rfl
      (Or.inr (Or.inr rfl)))
  constructor
  · unfold eval_magnification_bias
    rw [hlv1]
    rfl
  · unfold eval_magnification_bias
    rw [hlv2]
    rfl

/-- C3 amended: the reduction of `approx='order2'` to `approx='order1'`
in the limit where the mean-square efficiency equals the squared mean
holds for `eval_reduced_tangential_shear` (the order-2 correction factor
collapses to one); for `eval_magnification_bias` the `order2` result keeps
the second-order terms
`(alpha-1) <beta_s^2> gamma_inf^2 + (2 alpha - 1)(alpha-1) <beta_s^2> kappa_inf^2`
on top of the `order1` result, so the two are not equal in that limit. -/
theorem order2_reduces_to_order1_limit (M : CLMModel) (r z_cl bs bs2 alpha : ℚ)
    (bk : Option BetaKwargs) :
    (bs2 = bs * bs →
      eval_reduced_tangential_shear M r z_cl (.betaPair bs bs2) "beta" (some "order2") bk
        = eval_reduced_tangential_shear M r z_cl (.betaPair bs bs2) "beta" (some "order1") bk) ∧
    (0 < r → 0 < z_cl →
      eval_magnification_bias M r z_cl (.betaPair bs bs2) alpha "beta" (some "order2") bk
        = .ok (.avgOut (1 + (alpha - 1) * (2 * bs * eval_convergence_core M r z_cl M.z_inf)
          + (alpha - 1) * (bs2 * (eval_tangential_shear_core M r z_cl M.z_inf) ^ 2)
          + (2 * alpha - 1) * (alpha - 1) * bs2 * (eval_convergence_core M r z_cl M.z_inf) ^ 2)) ∧
      eval_magnification_bias M r z_cl (.betaPair bs bs2) alpha "beta" (some "order1") bk
        = .ok (.avgOut (1 + (alpha - 1) * (2 * bs * eval_convergence_core M r z_cl M.z_inf)))) := by
  constructor
  · intro h
    have hlveq : lensValidate M r z_cl "beta" (.betaPair bs bs2) (some "order2")
        = lensValidate M r z_cl "beta" (.betaPair bs bs2) (some "order1") := rfl
    unfold eval_reduced_tangential_shear
    rw [hlveq]
    cases hlv : lensValidate M r z_cl "beta" (.betaPair bs bs2) (some "order1") with
    | error e => rfl
    | ok u =>
      have hx : bs * eval_tangential_shear_core M r z_cl M.z_inf
            / (1 - bs * eval_convergence_core M r z_cl M.z_inf)
            * (1 + (bs2 / (bs * bs) - 1) * bs * eval_convergence_core M r z_cl M.z_inf)
          = bs * eval_tangential_shear_core M r z_cl M.z_inf
            / (1 - bs * eval_convergence_core M r z_cl M.z_inf) := by
        subst h
        by_cases hb : bs = 0
        · simp [hb]
        · rw [div_self (mul_ne_zero hb hb)]
          ring
      exact congrArg (fun v => (Except.ok (LensResult.avgOut v) : Except String LensResult)) hx
  · intro hr hz
    exact ⟨(mag_bias_beta_order_forms M r z_cl bs bs2 alpha bk hr hz).2,
      (mag_bias_beta_order_forms M r z_cl bs bs2 alpha bk hr hz).1⟩

/-- C3 counterexample: at unit moments (so the limit
`<beta_s^2> = <beta_s>^2` holds), unit convergence and zero shear, the
magnification bias with `approx='order2'` is `6` while `approx='order1'`
gives `3` — the spec's claimed reduction fails for
`eval_magnification_bias`. -/
theorem mag_bias_order2_ne_order1 :
    ((1 : ℚ) = 1 * 1) ∧
    eval_magnification_bias model0 1 1 (.betaPair 1 1) 2 "beta" (some "order2") none
      = .ok (.avgOut 6) ∧
    eval_magnification_bias model0 1 1 (.betaPair 1 1) 2 "beta" (some "order1") none
      = .ok (.avgOut 3) ∧
    (6 : ℚ) ≠ 3 := by
  have h := mag_bias_beta_order_forms model0 1 1 1 1 2 none one_pos one_pos
  refine ⟨by norm_num, ?_, ?_, by norm_num⟩
  · rw [h.2]
    norm_num [eval_convergence_core, eval_tangential_shear_core, model0, cosmo0]
  · rw [h.1]
    norm_num [eval_convergence_core, eval_tangential_shear_core, model0, cosmo0]

/-- C3 witness: the reduced-shear reduction and the order-1 bias form at a
concrete input. -/
theorem order2_reduces_to_order1_limit_witness :
    eval_reduced_tangential_shear model0 1 1 (.betaPair 1 1) "beta" (some "order2") none
      = eval_reduced_tangential_shear model0 1 1 (.betaPair 1 1) "beta" (some "order1") none ∧
    eval_magnification_bias model0 1 1 (.betaPair 1 1) 2 "beta" (some "order1") none
      = .ok (.avgOut (1 + (2 - 1) * (2 * 1 * eval_convergence_core model0 1 1 model0.z_inf))) := by
  have h := order2_reduces_to_order1_limit model0 1 1 1 1 2 none
  exact ⟨h.1 (by norm_num), (h.2 one_pos one_pos).2⟩

/-- C8 witness: with two galaxies in one bin the occupancy filter keeps
the list, and with `include_empty_bins=True` one list per bin returns. -/
theorem gal_ids_occupancy_filter_witness :
    1 < ([1, 2] : List ℤ).length ∧ (gal_ids_in_bins [1, 2] [1, 1] 1 true).length = 1 := by
  have h := gal_ids_occupancy_filter [1, 2] [1, 1] 1
  exact ⟨h.1 [1, 2] (by decide), h.2⟩
